import Mathlib

/-!
Verification development for the glulxe profiling analyzer
(profile-analyze.py).  The Python source is shallowly embedded:

* Python dicts are modelled by association lists holding their
  key-value contents (update in place, append new keys).  This is a
  Python 2 script, so a dict iterates in hash-table order, not in
  insertion order; where that order is observable (the report walks
  functions.values()), the CPython 2 hash table is modelled explicitly
  (py2buildFunctions and py2values below) instead of the contents list;
* Python ints are Lean Int, Python floats appear only as opaque ordered
  values (constructed and compared, never computed with), modelled as Rat;
* Python byte strings are modelled as Lean String (one Char per byte);
* the binary debug-table reader threads the remaining byte list
  (List Nat, one Nat per byte) explicitly; a read past end of file that
  Python turns into a struct.error is a .fail outcome, and the one loop
  that Python never exits on truncated input (read_string) is a
  .diverge outcome.
-/

namespace ProfileAnalyze

set_option maxRecDepth 8000

/-- Assoc-list lookup, first match wins (dict access). -/
def alookup {κ α : Type} [DecidableEq κ] (k : κ) : List (κ × α) → Option α
  | [] => none
  | (k1, v) :: rest => if k1 = k then some v else alookup k rest

/-- Assoc-list update (dict assignment): replace in place if the key is
present, otherwise append at the end; the list records the dict's
key-value contents. -/
def aupd {κ α : Type} [DecidableEq κ] (l : List (κ × α)) (k : κ) (v : α) :
    List (κ × α) :=
  match l with
  | [] => [(k, v)]
  | (k1, v1) :: rest => if k1 = k then (k, v) :: rest else (k1, v1) :: aupd rest k v

/-- special_functions = { 1: 'glk', 2: 'streamout' } -/
def special_functions : List (Int × String) := [(1, "glk"), (2, "streamout")]

/-- The attributes of one function element of the profile-raw trace, after
numeric conversion.  accel_count is optional (attrs.has_key check). -/
structure Attrs where
  call_count : Int
  accel_count : Option Int
  total_ops : Int
  total_time : Rat
  self_ops : Int
  self_time : Rat
deriving DecidableEq, Repr

/-- One cost record (class Function of the source). -/
structure Function where
  addr : Int
  hexaddr : String
  name : String
  special : Bool
  linenum : Int
  call_count : Int
  accel_count : Int
  total_ops : Int
  total_time : Rat
  self_ops : Int
  self_time : Rat
deriving DecidableEq, Repr

/-- Function.__init__: name and special flag come from the
special_functions table; linenum starts at 0; accel_count defaults to 0;
all cost fields are copied from the attributes without validation. -/
def mkFunction (addr : Int) (hexaddr : String) (attrs : Attrs) : Function :=
  let val := alookup addr special_functions
  let (name, special) :=
    match val with
    | none => (("<???>" : String), false)
    | some v => (("<@" ++ v ++ ">" : String), true)
  { addr := addr
    hexaddr := hexaddr
    name := name
    special := special
    linenum := 0
    call_count := attrs.call_count
    accel_count := (attrs.accel_count).getD 0
    total_ops := attrs.total_ops
    total_time := attrs.total_time
    self_ops := attrs.self_ops
    self_time := attrs.self_time }

/-- One function element of the trace (address already converted from its
hex string by int(hexaddr, 16)). -/
structure TraceElem where
  addr : Int
  hexaddr : String
  attrs : Attrs
deriving DecidableEq, Repr

/-- ProfileRawHandler.startElement over the whole trace:
functions[addr] = Function(addr, hexaddr, attrs) for each element.
The resulting list is the functions dict's key-value contents in
discovery order; the Python 2 dict's own iteration order over these
records is modelled by py2values (py2buildFunctions elems). -/
def runTrace (elems : List TraceElem) : List (Int × Function) :=
  elems.foldl (fun m e => aupd m e.addr (mkFunction e.addr e.hexaddr e.attrs)) []

/-- source_start = min([ func.addr for func in functions.values()
                         if not func.special ]);
Python min of an empty list raises, modelled as none. -/
def source_start_calc (fns : List Function) : Option Int :=
  match (fns.filter (fun f => !f.special)).map (fun f => f.addr) with
  | [] => none
  | a :: rest => some (rest.foldl min a)

/-! ### The assembly-listing fallback scanner (parse_asm) -/

/-- Whitespace-run splitting of Python str.split() with no argument:
runs of whitespace separate tokens, leading and trailing whitespace and
empty pieces are dropped.  First accumulator argument is the reversed
current token. -/
def tokensAux : List Char → List Char → List String
  | [], cur => if cur = [] then [] else [String.mk cur.reverse]
  | c :: cs, cur =>
    if c.isWhitespace then
      if cur = [] then tokensAux cs [] else String.mk cur.reverse :: tokensAux cs []
    else tokensAux cs (c :: cur)

/-- Python s.split() (split on whitespace runs). -/
def pySplit (s : String) : List String := tokensAux s.data []

/-- Python s.strip(). -/
def pyStrip (s : String) : String :=
  String.mk (((s.data.dropWhile Char.isWhitespace).reverse.dropWhile
    Char.isWhitespace).reverse)

/-- Decimal digit value, none for non-digits. -/
def digitVal (c : Char) : Option Nat :=
  if c.isDigit then some (c.toNat - 48) else none

/-- Hexadecimal digit value, none for non-hex characters. -/
def hexDigitVal (c : Char) : Option Nat :=
  if c.isDigit then some (c.toNat - 48)
  else if ('a' ≤ c ∧ c ≤ 'f') then some (c.toNat - 87)
  else if ('A' ≤ c ∧ c ≤ 'F') then some (c.toNat - 55)
  else none

/-- Fold a nonempty digit run; none if any character is not a digit of the
base or the run is empty. -/
def digitsToNat (dv : Char → Option Nat) (base : Nat) (cs : List Char) :
    Option Nat :=
  match cs with
  | [] => none
  | _ =>
    cs.foldl (fun acc c =>
      match acc, dv c with
      | some n, some d => some (n * base + d)
      | _, _ => none) (some 0)

/-- Optional leading sign of a Python int literal. -/
def splitSign (cs : List Char) : Bool × List Char :=
  match cs with
  | '-' :: rest => (true, rest)
  | '+' :: rest => (false, rest)
  | _ => (false, cs)

/-- Python int(s): optional sign, then a nonempty run of decimal digits;
anything else raises ValueError, modelled as none. -/
def pyInt (s : String) : Option Int :=
  let (neg, cs) := splitSign s.data
  match digitsToNat digitVal 10 cs with
  | none => none
  | some n => some (if neg then -(n : Int) else (n : Int))

/-- Python int(s, 16): optional sign, optional 0x or 0X marker, then a
nonempty run of hex digits; anything else is none. -/
def pyIntHex (s : String) : Option Int :=
  let (neg, cs) := splitSign s.data
  let cs :=
    match cs with
    | '0' :: 'x' :: rest => rest
    | '0' :: 'X' :: rest => rest
    | _ => cs
  match digitsToNat hexDigitVal 16 cs with
  | none => none
  | some n => some (if neg then -(n : Int) else (n : Int))

/-- Python t.startswith over one explicit leading character check. -/
def startsWithPlus (t : String) : Bool :=
  match t.data with
  | c :: _ => c = '+'
  | [] => false

/-- Python t[1:]. -/
def strTail (t : String) : String := String.mk (t.data.drop 1)

/-- The body of the parse_asm try block for one tokenized line: if the
line has at least 4 tokens, token 2 is the literal bracket and token 1
starts with a plus, capture (int(token 0), token 3, int(token 1 minus the
plus, 16)); a ValueError from either int conversion leaves lasttup None. -/
def scanTokens (ls : List String) : Option (Int × String × Int) :=
  if 4 ≤ ls.length ∧ ls.getD 2 ("") = ("[" : String) ∧
      startsWithPlus (ls.getD 1 ("")) then
    match pyInt (ls.getD 0 ("")), pyIntHex (strTail (ls.getD 1 (""))) with
    | some linenum, some addr => some (linenum, ls.getD 3 (""), addr)
    | _, _ => none
  else none

/-- The parse_asm loop: commit the pending tuple when the current line is
blank, then recompute the pending tuple from the current line.  The line
list is the file's lines; the end of the list is readline returning EOF,
so a pending tuple at the end of the list is dropped. -/
def parse_asm_loop (lines : List String) (lasttup : Option (Int × String × Int))
    (sm : List (Int × (Int × String))) : List (Int × (Int × String)) :=
  match lines with
  | [] => sm
  | ln :: rest =>
    let ls := pySplit (pyStrip ln)
    let sm1 :=
      match lasttup with
      | some (linenum, funcname, addr) =>
        if ls = [] then aupd sm addr (linenum, funcname) else sm
      | none => sm
    parse_asm_loop rest (scanTokens ls) sm1

/-- parse_asm: scan the listing, producing sourcemap. -/
def parse_asm (lines : List String) : List (Int × (Int × String)) :=
  parse_asm_loop lines none []

/-- The pending tuple computed from one raw line. -/
def scanLine (ln : String) : Option (Int × String × Int) :=
  scanTokens (pySplit (pyStrip ln))

/-! ### The binary debug-table decoder (class DebugFile)

The byte stream is a List Nat (one entry per byte).  Python file reads
return short data at end of file; struct.unpack on short data raises,
modelled as .fail.  The one read loop that Python never exits on
truncated input (read_string waiting for a null byte that never comes)
is modelled as .diverge. -/

/-- Outcome of running a piece of the decoder. -/
inductive DecOut (α : Type) where
  | ok : α → DecOut α
  | fail : String → DecOut α
  | diverge : DecOut α
deriving Repr

instance {α : Type} [DecidableEq α] : DecidableEq (DecOut α) := fun a b =>
  match a, b with
  | .ok x, .ok y =>
    if h : x = y then .isTrue (by rw [h]) else .isFalse (by simp [h])
  | .fail x, .fail y =>
    if h : x = y then .isTrue (by rw [h]) else .isFalse (by simp [h])
  | .diverge, .diverge => .isTrue rfl
  | .ok _, .fail _ => .isFalse (by simp)
  | .ok _, .diverge => .isFalse (by simp)
  | .fail _, .ok _ => .isFalse (by simp)
  | .fail _, .diverge => .isFalse (by simp)
  | .diverge, .ok _ => .isFalse (by simp)
  | .diverge, .fail _ => .isFalse (by simp)

/-- A decoding step: consumes bytes from the stream. -/
def DecM (α : Type) : Type := List Nat → DecOut (α × List Nat)

instance : Monad DecM where
  pure a := fun s => .ok (a, s)
  bind m f := fun s =>
    match m s with
    | .ok (a, s1) => f a s1
    | .fail e => .fail e
    | .diverge => .diverge

/-- struct.error raised by unpack on short data from a read at EOF. -/
def truncMsg : String := "struct.error: unpack str size does not match format"

/-- fl.read(1) then unpack of one unsigned byte. -/
def readByte : DecM Nat := fun s =>
  match s with
  | [] => .fail truncMsg
  | b :: rest => .ok (b, rest)

/-- fl.read(2) then unpack of one big-endian unsigned 16-bit value. -/
def readU16 : DecM Nat := fun s =>
  match s with
  | b0 :: b1 :: rest => .ok (256 * b0 + b1, rest)
  | _ => .fail truncMsg

/-- fl.read(3) then unpack of a null byte prepended to the data as a
big-endian unsigned 32-bit value (the 3-byte address fields). -/
def read3addr : DecM Nat := fun s =>
  match s with
  | b0 :: b1 :: b2 :: rest => .ok (65536 * b0 + 256 * b1 + b2, rest)
  | _ => .fail truncMsg

/-- read_linenum: fl.read(4) unpacked as byte, 16-bit, byte. -/
def read_linenum : DecM (Nat × Nat × Nat) := fun s =>
  match s with
  | b0 :: b1 :: b2 :: b3 :: rest => .ok ((b0, 256 * b1 + b2, b3), rest)
  | _ => .fail truncMsg

/-- read_header_rec body: fl.read(64) stored as-is, short data included
(no unpack, so no error at EOF). -/
def readHeaderBytes : DecM (List Nat) := fun s => .ok (s.take 64, s.drop 64)

/-- Bytes rendered as a Python byte string. -/
def strOfBytes (l : List Nat) : String := String.mk (l.map Char.ofNat)

/-- read_string: single-byte reads accumulated until a null byte, the
null consumed and dropped.  At EOF read(1) returns empty data forever,
which is not the null string, so the Python loop never exits: that case
is .diverge. -/
def read_string : DecM String := fun s =>
  match s.dropWhile (fun b => b ≠ 0) with
  | _ :: rest => .ok (strOfBytes (s.takeWhile (fun b => b ≠ 0)), rest)
  | [] => .diverge

/-- Run of null-terminated strings ended by an empty string (the locals
list of a routine record).  Every successful read_string consumes at
least the null byte, so fuel one beyond the stream length never runs
out; fuel exhaustion is mapped to .diverge. -/
def read_str_list : Nat → List Nat → DecOut (List String × List Nat)
  | 0, _ => .diverge
  | fuel + 1, s =>
    match read_string s with
    | .ok (v, rest) =>
      if v = ("" : String) then .ok ([], rest)
      else
        match read_str_list fuel rest with
        | .ok (vs, rest1) => .ok (v :: vs, rest1)
        | .fail e => .fail e
        | .diverge => .diverge
    | .fail e => .fail e
    | .diverge => .diverge

/-- The locals loop of read_routine_rec as a decoding step. -/
def read_locals : DecM (List String) := fun s =>
  match read_str_list (s.length + 1) s with
  | .ok (vs, rest) => .ok ((vs, rest))
  | .fail e => .fail e
  | .diverge => .diverge

/-- The pair loop of read_map_rec: (name, 3-byte address) pairs ended by
an empty name. -/
def read_map_pairs : Nat → List Nat → DecOut (List (String × Nat) × List Nat)
  | 0, _ => .diverge
  | fuel + 1, s =>
    match read_string s with
    | .ok (v, rest) =>
      if v = ("" : String) then .ok ([], rest)
      else
        match read3addr rest with
        | .ok (addr, rest1) =>
          match read_map_pairs fuel rest1 with
          | .ok (ps, rest2) => .ok ((v, addr) :: ps, rest2)
          | .fail e => .fail e
          | .diverge => .diverge
        | .fail e => .fail e
        | .diverge => .diverge
    | .fail e => .fail e
    | .diverge => .diverge

/-- The sequence-point loop of read_lineref_rec: count repetitions of a
line-position triple followed by a 16-bit in-function address. -/
def read_seqpts : Nat → DecM (List ((Nat × Nat × Nat) × Nat))
  | 0 => pure []
  | count + 1 => do
    let linenum ← read_linenum
    let addr ← readU16
    let rest ← read_seqpts count
    pure ((linenum, addr) :: rest)

/-- class InformFunc: one entry of the function table.  A fresh entry has
the unknown name, address 0 and every other field unset. -/
structure InformFunc where
  funcnum : Nat
  name : String := "<???>"
  addr : Nat := 0
  linenum : Option (Nat × Nat × Nat) := none
  endaddr : Option Nat := none
  endlinenum : Option (Nat × Nat × Nat) := none
  locals : Option (List String) := none
  seqpts : Option (List ((Nat × Nat × Nat) × Nat)) := none
deriving DecidableEq, Repr

/-- class DebugFile: the symbol database under construction. -/
structure DebugFile where
  files : List (Nat × (String × String)) := []
  functions : List (Nat × InformFunc) := []
  function_names : List (String × InformFunc) := []
  classes : List (String × (Nat × Nat × Nat) × (Nat × Nat × Nat)) := []
  objects : List (Nat × (String × (Nat × Nat × Nat) × (Nat × Nat × Nat))) := []
  arrays : List (Nat × String) := []
  globals : List (Nat × String) := []
  properties : List (Nat × String) := []
  attributes : List (Nat × String) := []
  actions : List (Nat × String) := []
  fake_actions : List (Nat × String) := []
  map : List (String × Nat) := []
  header : Option (List Nat) := none
  debugversion : Nat := 0
  informversion : Nat := 0
deriving DecidableEq, Repr

/-- get_function: the existing entry for funcnum, or a fresh default one.
In the source the fresh entry is also inserted into the table; every
caller stores the updated entry back under the same key, so returning
the entry and storing once at the end of the record is equivalent. -/
def get_function (df : DebugFile) (funcnum : Nat) : InformFunc :=
  match alookup funcnum df.functions with
  | some func => func
  | none => { funcnum := funcnum }

/-- Record type 1. -/
def read_file_rec (df : DebugFile) : DecM DebugFile := do
  let filenum ← readByte
  let includename ← read_string
  let realname ← read_string
  pure { df with files := aupd df.files filenum (includename, realname) }

/-- Record type 2. -/
def read_class_rec (df : DebugFile) : DecM DebugFile := do
  let name ← read_string
  let start ← read_linenum
  let stop ← read_linenum
  pure { df with classes := df.classes ++ [(name, start, stop)] }

/-- Record type 3. -/
def read_object_rec (df : DebugFile) : DecM DebugFile := do
  let num ← readU16
  let name ← read_string
  let start ← read_linenum
  let stop ← read_linenum
  pure { df with objects := aupd df.objects num (name, start, stop) }

/-- Record type 4.  The source stores the global name into the arrays
table (self.arrays[num] = name), not into self.globals. -/
def read_global_rec (df : DebugFile) : DecM DebugFile := do
  let num ← readByte
  let name ← read_string
  pure { df with arrays := aupd df.arrays num name }

/-- Record type 12. -/
def read_array_rec (df : DebugFile) : DecM DebugFile := do
  let num ← readU16
  let name ← read_string
  pure { df with arrays := aupd df.arrays num name }

/-- Record type 5. -/
def read_attr_rec (df : DebugFile) : DecM DebugFile := do
  let num ← readU16
  let name ← read_string
  pure { df with attributes := aupd df.attributes num name }

/-- Record type 6. -/
def read_prop_rec (df : DebugFile) : DecM DebugFile := do
  let num ← readU16
  let name ← read_string
  pure { df with properties := aupd df.properties num name }

/-- Record type 8. -/
def read_action_rec (df : DebugFile) : DecM DebugFile := do
  let num ← readU16
  let name ← read_string
  pure { df with actions := aupd df.actions num name }

/-- Record type 7. -/
def read_fake_action_rec (df : DebugFile) : DecM DebugFile := do
  let num ← readU16
  let name ← read_string
  pure { df with fake_actions := aupd df.fake_actions num name }

/-- Record type 11: function id, definition line-position, 3-byte
address, name, then locals until an empty string. -/
def read_routine_rec (df : DebugFile) : DecM DebugFile := do
  let funcnum ← readU16
  let func := get_function df funcnum
  let linenum ← read_linenum
  let addr ← read3addr
  let name ← read_string
  let locals ← read_locals
  let func := { func with
    linenum := some linenum
    addr := addr
    name := name
    locals := some locals }
  pure { df with functions := aupd df.functions funcnum func }

/-- Record type 10: function id, then a 16-bit count of (line-position,
16-bit address) pairs appended to the sequence-point list, the list being
created when it is None or empty. -/
def read_lineref_rec (df : DebugFile) : DecM DebugFile := do
  let funcnum ← readU16
  let func := get_function df funcnum
  let seq0 :=
    match func.seqpts with
    | none => []
    | some l => l
  let count ← readU16
  let items ← read_seqpts count
  let func := { func with seqpts := some (seq0 ++ items) }
  pure { df with functions := aupd df.functions funcnum func }

/-- Record type 14: function id, end line-position, 3-byte end address. -/
def read_routine_end_rec (df : DebugFile) : DecM DebugFile := do
  let funcnum ← readU16
  let func := get_function df funcnum
  let endlinenum ← read_linenum
  let endaddr ← read3addr
  let func := { func with
    endlinenum := some endlinenum
    endaddr := some endaddr }
  pure { df with functions := aupd df.functions funcnum func }

/-- Record type 9: 64 opaque bytes. -/
def read_header_rec (df : DebugFile) : DecM DebugFile := do
  let dat ← readHeaderBytes
  pure { df with header := some dat }

/-- Record type 13: (name, 3-byte address) pairs until an empty name,
each stored into the name-to-address map. -/
def read_map_rec (df : DebugFile) : DecM DebugFile := fun s =>
  match read_map_pairs (s.length + 1) s with
  | .ok (pairs, rest) =>
    .ok (pairs.foldl (fun d p => { d with map := aupd d.map p.1 p.2 }) df, rest)
  | .fail e => .fail e
  | .diverge => .diverge

/-- The rectable dispatch: known record tags to their readers, none for
any other tag. -/
def rectable (rectype : Nat) : Option (DebugFile → DecM DebugFile) :=
  match rectype with
  | 1 => some read_file_rec
  | 2 => some read_class_rec
  | 3 => some read_object_rec
  | 4 => some read_global_rec
  | 5 => some read_attr_rec
  | 6 => some read_prop_rec
  | 7 => some read_fake_action_rec
  | 8 => some read_action_rec
  | 9 => some read_header_rec
  | 10 => some read_lineref_rec
  | 11 => some read_routine_rec
  | 12 => some read_array_rec
  | 13 => some read_map_rec
  | 14 => some read_routine_end_rec
  | _ => none

/-- ValueError for a tag outside the dispatch table. -/
def unknownRecMsg (rectype : Nat) : String :=
  "unknown debug record type: " ++ toString rectype

/-- The record loop of DebugFile.__init__: read a tag byte (EOF here is a
struct.error), stop at tag zero, dispatch known tags, fail on unknown
tags.  Every loop iteration consumes at least the tag byte, so fuel one
beyond the stream length never runs out. -/
def decode_body : Nat → DebugFile → List Nat → DecOut (DebugFile × List Nat)
  | 0, _, _ => .diverge
  | _ + 1, _, [] => .fail truncMsg
  | fuel + 1, df, b :: rest =>
    if b = 0 then .ok (df, rest)
    else
      match rectable b with
      | none => .fail (unknownRecMsg b)
      | some recfunc =>
        match recfunc df rest with
        | .ok (df1, s1) => decode_body fuel df1 s1
        | .fail e => .fail e
        | .diverge => .diverge

/-- The final pass of DebugFile.__init__: function_names[func.name] =
func over the function table in order (later entries win on name
collisions). -/
def df_finalize (df : DebugFile) : DebugFile :=
  { df with
    function_names :=
      df.functions.foldl (fun m p => aupd m p.2.name p.2) [] }

/-- ValueError for a bad magic number. -/
def badMagicMsg : String := "not an Inform debug file"

/-- DebugFile.__init__: magic check, two version words, record loop,
name-index pass.  Trailing bytes after the zero tag are not read. -/
def DebugFile_init (s : List Nat) : DecOut DebugFile :=
  match s with
  | m0 :: m1 :: rest =>
    if 256 * m0 + m1 ≠ 0xDEBF then .fail badMagicMsg
    else
      match rest with
      | d0 :: d1 :: i0 :: i1 :: body =>
        match decode_body (body.length + 1)
            { debugversion := 256 * d0 + d1, informversion := 256 * i0 + i1 }
            body with
        | .ok (df, _) => .ok (df_finalize df)
        | .fail e => .fail e
        | .diverge => .diverge
      | _ => .fail truncMsg
  | _ => .fail truncMsg

/-! ### Building sourcemap from a decoded debug file -/

/-- The TypeError message of a subscript applied to None. -/
def noneSubMsg : String := "TypeError: NoneType object is unsubscriptable"

/-- The loop body of the sourcemap construction from a DebugFile:
sourcemap[func.addr] = (func.linenum[1], func.name).  A function whose
linenum was never set still holds None, and None[1] raises TypeError,
modelled as an error outcome. -/
def build_sourcemap_list (sm : List (Int × (Int × String))) :
    List (Nat × InformFunc) → Except String (List (Int × (Int × String)))
  | [] => .ok sm
  | (_, func) :: rest =>
    match func.linenum with
    | none => .error noneSubMsg
    | some (_, ln, _) =>
      build_sourcemap_list (aupd sm (Int.ofNat func.addr) ((ln : Int), func.name)) rest

/-- sourcemap built from debugfile.functions.values(). -/
def build_sourcemap (df : DebugFile) : Except String (List (Int × (Int × String))) :=
  build_sourcemap_list [] df.functions

/-! ### The correlator -/

/-- The correlation loop over functions.items(): special records are
skipped; for the rest, a hit at address minus source_start fills in name
and line number, a miss leaves the record untouched and appends the
address to badls.  Returns the updated records in order, and badls in
iteration order. -/
def correlate (funcs : List (Int × Function)) (sm : List (Int × (Int × String)))
    (source_start : Int) : List (Int × Function) × List Int :=
  match funcs with
  | [] => ([], [])
  | (addr, f) :: rest =>
    let r := correlate rest sm source_start
    if f.special then ((addr, f) :: r.1, r.2)
    else
      match alookup (addr - source_start) sm with
      | some (linenum, funcname) =>
        ((addr, { f with name := funcname, linenum := linenum }) :: r.1, r.2)
      | none => ((addr, f) :: r.1, addr :: r.2)

/-! ### The report -/

/-- Stable descending insertion by self_time: walk past strictly
greater entries, insert before the first entry not strictly greater.
Folded from the right, this computes the unique result of a stable
descending sort, which is what ls.sort with the comparator
cmp(x2.self_time, x1.self_time) produces. -/
def insertDesc (f : Function) : List Function → List Function
  | [] => [f]
  | g :: gs =>
    if f.self_time < g.self_time then g :: insertDesc f gs else f :: g :: gs

/-- ls.sort(lambda x1, x2: cmp(x2.self_time, x1.self_time)): stable
descending sort by self_time. -/
def sortFuncs (l : List Function) : List Function := l.foldr insertDesc []

/-- The report: the first ten records of the sorted list (ls[:10]). -/
def report (l : List Function) : List Function := (sortFuncs l).take 10

/-! ### Concrete example data used by the claim theorems -/

/-- Valid 6-byte file header: magic 0xDEBF and two zero version words. -/
def dbgHeader : List Nat := [0xDE, 0xBF, 0, 0, 0, 0]

/-- A debug file from a record region: header, records, zero terminator. -/
def mkDbg (recs : List Nat) : List Nat := dbgHeader ++ recs ++ [0]

/-- Routine record for id 7: definition position (1, 42, 5), address
0x3c, name foo, one local x. -/
def recRoutine : List Nat :=
  [11, 0, 7, 1, 0, 42, 5, 0, 0, 60, 102, 111, 111, 0, 120, 0, 0]

/-- Line-reference record for id 7: one sequence point (1, 43, 2) at
in-function address 16. -/
def recLineref : List Nat := [10, 0, 7, 0, 1, 1, 0, 43, 2, 0, 16]

/-- Routine-end record for id 7: end position (1, 50, 1), address 0x60. -/
def recRoutineEnd : List Nat := [14, 0, 7, 1, 0, 50, 1, 0, 0, 96]

/-- The fully populated entry for id 7 after all three record kinds. -/
def funcSeven : InformFunc :=
  { funcnum := 7
    name := "foo"
    addr := 60
    linenum := some (1, 42, 5)
    endaddr := some 96
    endlinenum := some (1, 50, 1)
    locals := some ["x"]
    seqpts := some [((1, 43, 2), 16)] }

/-- The function-table entry for an id, when decoding succeeded. -/
def decoded_function (o : DecOut DebugFile) (n : Nat) : Option InformFunc :=
  match o with
  | .ok df => alookup n df.functions
  | .fail _ => none
  | .diverge => none

/-- A global record (tag 4, id 7, name A) followed by a bad tag 99. -/
def c3stream : List Nat := dbgHeader ++ [4, 7, 65, 0, 99]

/-- Truncated inside the name string of a file record: the stream ends
while read_string is waiting for a null byte. -/
def c4stringTrunc : List Nat := dbgHeader ++ [1, 5, 65]

/-- Truncated at a fixed-width read: a global record tag with nothing
after it, so the one-byte id read hits EOF. -/
def c4fixedTrunc : List Nat := dbgHeader ++ [4]

/-- One global record, properly terminated. -/
def c6stream : List Nat := mkDbg [4, 7, 65, 0]

/-- The database decoded from c6stream: the global name lands in the
arrays table, the globals table stays empty. -/
def c6db : DebugFile := { arrays := [(7, "A")] }

/-- A line-reference record for id 7 with zero sequence points, and no
routine record: the entry exists but its definition position is unset. -/
def c10stream : List Nat := mkDbg [10, 0, 7, 0, 0]

/-- The entry created for id 7 by c10stream. -/
def c10func : InformFunc := { funcnum := 7, seqpts := some [] }

/-- The database decoded from c10stream. -/
def c10db : DebugFile :=
  { functions := [(7, c10func)], function_names := [("<???>", c10func)] }

/-- Neutral attributes for constructing example cost records. -/
def attrsZero : Attrs :=
  { call_count := 1
    accel_count := none
    total_ops := 1
    total_time := 1
    self_ops := 1
    self_time := 1 }

/-- Cost records at addresses 0x40, 1, 2, 0x3c: two real functions and
the two sentinels. -/
def fnsC2 : List Function :=
  [mkFunction 0x40 "40" attrsZero, mkFunction 1 "1" attrsZero,
   mkFunction 2 "2" attrsZero, mkFunction 0x3c "3c" attrsZero]

/-- Attributes with self cost exceeding total cost. -/
def attrsBad : Attrs :=
  { call_count := 1
    accel_count := none
    total_ops := 4
    total_time := 3
    self_ops := 9
    self_time := 7 }

/-- A trace element carrying the violating attributes. -/
def elemBad : TraceElem := { addr := 64, hexaddr := "40", attrs := attrsBad }

/-- Attributes whose self_time is the given value (for the ranking
example). -/
def attrsTimed (t : Rat) : Attrs :=
  { call_count := 1
    accel_count := none
    total_ops := 10
    total_time := 9
    self_ops := 5
    self_time := t }

/-- Trace elements A, B, C in discovery order with self times 5, 5, 3. -/
def elemA : TraceElem := { addr := 100, hexaddr := "64", attrs := attrsTimed 5 }

/-- Second element, same self time as A. -/
def elemB : TraceElem := { addr := 200, hexaddr := "c8", attrs := attrsTimed 5 }

/-- Third element, smaller self time. -/
def elemC : TraceElem := { addr := 300, hexaddr := "12c", attrs := attrsTimed 3 }

/-- The spec's wording of the function-definition marker test: at least
4 tokens, token 1 starts with a plus, token 2 is literally the open
bracket.  (Stated from the spec for comparison with scanTokens; the
spec's wording omits the two int conversions of the source.) -/
def specMarker (ls : List String) : Bool :=
  decide (4 ≤ ls.length) && startsWithPlus (ls.getD 1 ("")) &&
    decide (ls.getD 2 ("") = ("[" : String))

/-- A line passing the spec's marker test whose line-number token is not
a decimal integer. -/
def c9badLine : String := "xx +zz [ foo"

/-- A line passing the marker test with parseable tokens. -/
def c9goodLine : String := "12 +1f [ foo"

/-- One record of every kind, in tag order. -/
def allRecsStream : List Nat :=
  mkDbg ([1, 3, 97, 0, 98, 0] ++
    [2, 99, 0, 1, 0, 10, 2, 1, 0, 11, 3] ++
    [3, 0, 5, 100, 0, 1, 0, 12, 0, 1, 0, 13, 0] ++
    [4, 8, 101, 0] ++
    [5, 0, 9, 102, 0] ++
    [6, 0, 10, 103, 0] ++
    [7, 0, 11, 104, 0] ++
    [8, 0, 12, 105, 0] ++
    ([9] ++ List.replicate 64 0) ++
    recLineref ++ recRoutine ++
    [12, 0, 13, 106, 0] ++
    [13, 107, 0, 0, 0, 5, 0] ++
    recRoutineEnd)

/-- The globals table of a decoded database, when decoding succeeded. -/
def globalsOf (o : DecOut DebugFile) : Option (List (Nat × String)) :=
  match o with
  | .ok df => some df.globals
  | .fail _ => none
  | .diverge => none

/-- A one-entry symbol map for exercising the correlator: relative
address 0 belongs to Main at line 12. -/
def smMain : List (Int × (Int × String)) := [(0, (12, "Main__"))]

/-- The record created from elemA. -/
def funcA : Function := mkFunction elemA.addr elemA.hexaddr elemA.attrs

/-- The record created from elemB. -/
def funcB : Function := mkFunction elemB.addr elemB.hexaddr elemB.attrs

/-- The record created from elemC. -/
def funcC : Function := mkFunction elemC.addr elemC.hexaddr elemC.attrs

/-! ### The CPython 2 dict holding the cost records

This is a Python 2 script, so the functions dict iterates in CPython 2
hash-table order, not in insertion order.  The report reads that order
(ls = functions.values(), then a stable sort whose tie-break is the
pre-sort order), so the table is modelled explicitly: open addressing
over 8 slots (the initial size of a CPython 2 dict; a table is resized
only when its fill reaches two thirds, i.e. at the sixth insertion, and
the example below inserts three records), first slot hash & 7, and the
CPython 2 probe recurrence i = 5*i + perturb + 1 with perturb starting
at the unsigned hash and shifted right by 5 after each step (lookdict
in dictobject.c).  No deletions occur, so dummy entries never arise.
Iteration (values, items, keys) walks the slots in index order. -/

/-- Python 2 hash of an int: the int itself, except hash(-1) = -2. -/
def py2hash (n : Int) : Int := if n = -1 then -2 else n

/-- The C size_t cast of a hash (two's complement, 64-bit). -/
def py2unsigned (h : Int) : Nat := ((h % (2 ^ 64 : Int)).toNat)

/-- A fresh CPython 2 hash table for the functions dict: 8 empty slots. -/
def py2emptyTable : List (Option (Int × Function)) := List.replicate 8 none

/-- The CPython 2 probe loop: return the first slot of the probe
sequence that is empty or already holds the key.  The index accumulates
unmasked, each access masks it; the fuel only bounds the loop and 64
steps are ample for a table that has a free slot. -/
def py2probeLoop (t : List (Option (Int × Function))) (k : Int)
    (i perturb : Nat) : Nat → Option Nat
  | 0 => none
  | fuel + 1 =>
    match t.getD (i % 8) none with
    | none => some (i % 8)
    | some (k1, _) =>
      if k1 = k then some (i % 8)
      else py2probeLoop t k (5 * i + perturb + 1) (perturb / 32) fuel

/-- Slot search for a key: start at hash & mask with perturb = hash. -/
def py2findSlot (t : List (Option (Int × Function))) (k : Int) : Option Nat :=
  py2probeLoop t k (py2unsigned (py2hash k) % 8) (py2unsigned (py2hash k)) 64

/-- d[k] = v on the hash table. -/
def py2insert (t : List (Option (Int × Function))) (k : Int) (v : Function) :
    List (Option (Int × Function)) :=
  match py2findSlot t k with
  | some i => t.set i (some (k, v))
  | none => t

/-- The functions dict built by the trace handler, as its CPython 2
hash table: functions[addr] = Function(addr, hexaddr, attrs) for each
element in discovery order. -/
def py2buildFunctions (elems : List TraceElem) :
    List (Option (Int × Function)) :=
  elems.foldl
    (fun t e => py2insert t e.addr (mkFunction e.addr e.hexaddr e.attrs))
    py2emptyTable

/-- functions.values(): the occupied slots in slot order. -/
def py2values (t : List (Option (Int × Function))) : List Function :=
  t.filterMap (fun s => Option.map Prod.snd s)

/-! ### Helper lemmas -/

theorem DecM_bind_def {α β : Type} (m : DecM α) (f : α → DecM β) (s : List Nat) :
    (m >>= f) s =
      match m s with
      | .ok (a, s1) => f a s1
      | .fail e => .fail e
      | .diverge => .diverge := rfl

theorem DecM_pure_def {α : Type} (a : α) (s : List Nat) :
    (pure a : DecM α) s = .ok (a, s) := rfl

theorem takeWhile_nonzero_append (l rest : List Nat) (h : ∀ b ∈ l, b ≠ 0) :
    (l ++ 0 :: rest).takeWhile (fun b => b ≠ 0) = l := by
  induction l with
  | nil => simp [List.takeWhile_cons]
  | cons b bs ih =>
    have hb : b ≠ 0 := h b (by simp)
    have ihs := ih (fun x hx => h x (by simp [hx]))
    simp [List.takeWhile_cons, hb]
    simpa using ihs

theorem dropWhile_nonzero_append (l rest : List Nat) (h : ∀ b ∈ l, b ≠ 0) :
    (l ++ 0 :: rest).dropWhile (fun b => b ≠ 0) = 0 :: rest := by
  induction l with
  | nil => simp [List.dropWhile_cons]
  | cons b bs ih =>
    have hb : b ≠ 0 := h b (by simp)
    have ihs := ih (fun x hx => h x (by simp [hx]))
    simp [List.dropWhile_cons, hb]
    simpa using ihs

theorem read_string_append (l rest : List Nat) (h : ∀ b ∈ l, b ≠ 0) :
    read_string (l ++ 0 :: rest) = .ok (strOfBytes l, rest) := by
  simp only [read_string]
  rw [dropWhile_nonzero_append l rest h, takeWhile_nonzero_append l rest h]

theorem rectable_none_of_unknown (b : Nat) (hb0 : b ≠ 0)
    (hbk : ¬(1 ≤ b ∧ b ≤ 14)) : rectable b = none := by
  rcases Nat.lt_or_ge b 15 with h15 | h15
  · interval_cases b
    · exact absurd rfl hb0
    all_goals exact absurd (by omega) hbk
  · obtain ⟨k, rfl⟩ : ∃ k, b = k + 15 := ⟨b - 15, by omega⟩
    rfl

/-! ### Claim theorems -/

/-- C3.  A non-zero tag outside the known set 1..14 makes the record loop
fail with the unknown-record-type error no matter what was decoded
before (first conjunct); a successfully handled known record just
continues the loop, so a later bad tag still fails the whole decode
(second conjunct); a zero tag terminates the loop successfully (third
conjunct); concretely, a stream with a good global record followed by
tag 99 fails with the unknown-record error, and no database is produced
(a .fail outcome carries no database by construction). -/
theorem C3_unknown_tag_fatal :
    (∀ (fuel : Nat) (df : DebugFile) (b : Nat) (rest : List Nat),
      b ≠ 0 → ¬(1 ≤ b ∧ b ≤ 14) →
      decode_body (fuel + 1) df (b :: rest) = .fail (unknownRecMsg b))
  ∧ (∀ (fuel : Nat) (df : DebugFile) (b : Nat) (rest : List Nat)
      (recfunc : DebugFile → DecM DebugFile) (df1 : DebugFile) (s1 : List Nat),
      rectable b = some recfunc → b ≠ 0 → recfunc df rest = .ok (df1, s1) →
      decode_body (fuel + 1) df (b :: rest) = decode_body fuel df1 s1)
  ∧ (∀ (fuel : Nat) (df : DebugFile) (rest : List Nat),
      decode_body (fuel + 1) df (0 :: rest) = .ok (df, rest))
  ∧ DebugFile_init c3stream = .fail (unknownRecMsg 99) := by
  refine ⟨?_, ?_, ?_, ?_⟩
  · intro fuel df b rest hb0 hbk
    simp [decode_body, hb0, rectable_none_of_unknown b hb0 hbk]
  · intro fuel df b rest recfunc df1 s1 hrect hb0 hok
    simp [decode_body, hb0, hrect, hok]
  · intro fuel df rest
    rfl
  · rfl

/-- C3 witness: the first conjunct applied at tag 99 on an empty
database. -/
theorem C3_unknown_tag_fatal_witness :
    decode_body 1 ({} : DebugFile) (99 :: []) = .fail (unknownRecMsg 99) :=
  C3_unknown_tag_fatal.1 0 ({} : DebugFile) 99 [] (by decide) (by decide)

/-- C4 counterexample: a stream that ends in the middle of a
null-terminated string read (inside a file record's include-name) does
not fail with a truncation error — the source's read_string loop never
terminates on it, modelled as the .diverge outcome, refuting the claim
that decoding always terminates with a database or an error. -/
theorem C4_counterexample : DebugFile_init c4stringTrunc = DecOut.diverge := rfl

/-- C4 amended.  Premature end-of-stream during a fixed-width read is a
fatal struct error (unpack of short data), including the tag-byte read
of the record loop, but premature end-of-stream during a null-terminated
string read makes the decoder loop forever (the .diverge outcome), which
is not an error report: a stream with no null byte left diverges.  The
two concrete truncated streams show both behaviors end to end. -/
theorem C4_truncation_behavior :
    readByte [] = .fail truncMsg
  ∧ (∀ (s : List Nat), s.length < 2 → readU16 s = .fail truncMsg)
  ∧ (∀ (s : List Nat), s.length < 3 → read3addr s = .fail truncMsg)
  ∧ (∀ (s : List Nat), s.length < 4 → read_linenum s = .fail truncMsg)
  ∧ (∀ (s : List Nat), (∀ b ∈ s, b ≠ 0) → read_string s = DecOut.diverge)
  ∧ (∀ (fuel : Nat) (df : DebugFile),
      decode_body (fuel + 1) df [] = .fail truncMsg)
  ∧ DebugFile_init c4fixedTrunc = .fail truncMsg
  ∧ DebugFile_init c4stringTrunc = DecOut.diverge := by
  refine ⟨rfl, ?_, ?_, ?_, ?_, ?_, rfl, rfl⟩
  · intro s hs
    match s with
    | [] => rfl
    | [b] => rfl
    | b0 :: b1 :: t => simp at hs; omega
  · intro s hs
    match s with
    | [] => rfl
    | [b] => rfl
    | [b0, b1] => rfl
    | b0 :: b1 :: b2 :: t => simp at hs; omega
  · intro s hs
    match s with
    | [] => rfl
    | [b] => rfl
    | [b0, b1] => rfl
    | [b0, b1, b2] => rfl
    | b0 :: b1 :: b2 :: b3 :: t => simp at hs; omega
  · intro s hs
    have hd : s.dropWhile (fun b => b ≠ 0) = [] := by
      rw [List.dropWhile_eq_nil_iff]
      intro x hx
      simpa using hs x hx
    simp only [read_string]
    rw [hd]
  · intro fuel df
    rfl

/-- C4 witness: the fixed-width conjunct at a one-byte stream and the
string conjunct at a stream with no null byte. -/
theorem C4_truncation_behavior_witness :
    readU16 [5] = .fail truncMsg ∧ read_string [65] = DecOut.diverge :=
  ⟨C4_truncation_behavior.2.1 [5] (by decide),
   C4_truncation_behavior.2.2.2.2.1 [65] (by decide)⟩

/-- C5.  get_function creates a default entry (unknown name, address 0,
all position, locals and sequence-point fields unset) for an id with no
entry yet (first conjunct); the three function-referencing record kinds
10, 11, 14 for one id produce the same fully populated entry in all six
arrival orders (middle conjuncts); and with only a routine record and no
routine-end record, the address and name are populated together while
the end fields remain unset (last conjunct). -/
theorem C5_function_entries_any_order :
    (∀ (df : DebugFile) (n : Nat), alookup n df.functions = none →
      get_function df n =
        { funcnum := n, name := "<???>", addr := 0, linenum := none,
          endaddr := none, endlinenum := none, locals := none, seqpts := none })
  ∧ decoded_function (DebugFile_init (mkDbg (recRoutine ++ recLineref ++ recRoutineEnd))) 7
      = some funcSeven
  ∧ decoded_function (DebugFile_init (mkDbg (recRoutine ++ recRoutineEnd ++ recLineref))) 7
      = some funcSeven
  ∧ decoded_function (DebugFile_init (mkDbg (recLineref ++ recRoutine ++ recRoutineEnd))) 7
      = some funcSeven
  ∧ decoded_function (DebugFile_init (mkDbg (recLineref ++ recRoutineEnd ++ recRoutine))) 7
      = some funcSeven
  ∧ decoded_function (DebugFile_init (mkDbg (recRoutineEnd ++ recRoutine ++ recLineref))) 7
      = some funcSeven
  ∧ decoded_function (DebugFile_init (mkDbg (recRoutineEnd ++ recLineref ++ recRoutine))) 7
      = some funcSeven
  ∧ decoded_function (DebugFile_init (mkDbg recRoutine)) 7 =
      some { funcnum := 7, name := "foo", addr := 60, linenum := some (1, 42, 5),
             endaddr := none, endlinenum := none, locals := some ["x"],
             seqpts := none } := by
  refine ⟨?_, rfl, rfl, rfl, rfl, rfl, rfl, rfl⟩
  intro df n hnone
  simp [get_function, hnone]

/-- C5 witness: the default-creation conjunct on the empty database. -/
theorem C5_function_entries_any_order_witness :
    get_function ({} : DebugFile) 3 =
      { funcnum := 3, name := "<???>", addr := 0, linenum := none,
        endaddr := none, endlinenum := none, locals := none, seqpts := none } :=
  C5_function_entries_any_order.1 ({} : DebugFile) 3 rfl

/-- C6 counterexample: decoding a single Global record (tag 4, id 7,
name A) succeeds but leaves the globals sub-table empty; the name is
stored in the arrays sub-table instead (read_global_rec writes
self.arrays), refuting the claim that Global names are recorded in the
globals sub-table. -/
theorem C6_counterexample :
    DebugFile_init c6stream = .ok c6db
  ∧ c6db.globals = []
  ∧ alookup 7 c6db.globals = none
  ∧ alookup 7 c6db.arrays = some ("A") :=
  ⟨rfl, rfl, rfl, rfl⟩

/-- C6 amended.  A Global record (tag 4: 1-byte id, name) stores its
name into the arrays sub-table keyed by its id, not into the globals
sub-table, and an Array record (tag 12: 2-byte id, name) stores into
that same arrays table; the globals sub-table is never populated (the
stream with one record of every kind still decodes with empty
globals). -/
theorem C6_global_records_go_to_arrays :
    (∀ (df : DebugFile) (idb : Nat) (nm rest : List Nat), (∀ b ∈ nm, b ≠ 0) →
      read_global_rec df (idb :: (nm ++ 0 :: rest)) =
        .ok ({ df with arrays := aupd df.arrays idb (strOfBytes nm) }, rest))
  ∧ (∀ (df : DebugFile) (i0 i1 : Nat) (nm rest : List Nat), (∀ b ∈ nm, b ≠ 0) →
      read_array_rec df (i0 :: i1 :: (nm ++ 0 :: rest)) =
        .ok ({ df with arrays := aupd df.arrays (256 * i0 + i1) (strOfBytes nm) }, rest))
  ∧ globalsOf (DebugFile_init allRecsStream) = some [] := by
  refine ⟨?_, ?_, rfl⟩
  · intro df idb nm rest h
    simp only [read_global_rec]
    rw [DecM_bind_def]
    simp only [readByte]
    rw [DecM_bind_def, read_string_append nm rest h]
    rfl
  · intro df i0 i1 nm rest h
    simp only [read_array_rec]
    rw [DecM_bind_def]
    simp only [readU16]
    rw [DecM_bind_def, read_string_append nm rest h]
    rfl

/-- C6 amended witness: the Global conjunct at id 7, name A over the
empty database. -/
theorem C6_global_records_go_to_arrays_witness :
    read_global_rec ({} : DebugFile) (7 :: ([65] ++ 0 :: [])) =
      .ok ({ arrays := [(7, "A")] }, []) := by
  have h := C6_global_records_go_to_arrays.1 ({} : DebugFile) 7 [65] [] (by decide)
  simpa using h

/-- C10.  A function entry whose definition position is still unset
makes the sourcemap construction fail with the TypeError of subscripting
None (first conjunct); conversely a successful construction requires
every entry's definition position to be set, which only a Routine record
does (second conjunct); concretely, a debug table containing only a
line-reference record for id 7 decodes successfully to a database whose
entry for 7 has no definition position, and building sourcemap from it
fails. -/
theorem C10_sourcemap_requires_routine_records :
    (∀ (sm : List (Int × (Int × String))) (l : List (Nat × InformFunc))
      (p : Nat × InformFunc), p ∈ l → p.2.linenum = none →
      build_sourcemap_list sm l = .error noneSubMsg)
  ∧ (∀ (sm : List (Int × (Int × String))) (l : List (Nat × InformFunc))
      (out : List (Int × (Int × String))),
      build_sourcemap_list sm l = .ok out → ∀ p ∈ l, p.2.linenum ≠ none)
  ∧ DebugFile_init c10stream = .ok c10db
  ∧ alookup 7 c10db.functions = some c10func
  ∧ c10func.linenum = none
  ∧ build_sourcemap c10db = .error noneSubMsg := by
  refine ⟨?_, ?_, rfl, rfl, rfl, rfl⟩
  · intro sm l
    induction l generalizing sm with
    | nil => intro p hp; exact absurd hp (List.not_mem_nil p)
    | cons q rest ih =>
      intro p hp hnone
      obtain ⟨k, func⟩ := q
      rcases List.mem_cons.mp hp with rfl | hmem
      · simp only [build_sourcemap_list]
        rw [hnone]
      · simp only [build_sourcemap_list]
        match hln : func.linenum with
        | none => rfl
        | some (a, ln, c) => exact ih _ p hmem hnone
  · intro sm l
    induction l generalizing sm with
    | nil => intro out hok p hp; exact absurd hp (List.not_mem_nil p)
    | cons q rest ih =>
      intro out hok p hp
      obtain ⟨k, func⟩ := q
      simp only [build_sourcemap_list] at hok
      match hln : func.linenum with
      | none => rw [hln] at hok; exact absurd hok (by simp)
      | some (a, ln, c) =>
        rw [hln] at hok
        rcases List.mem_cons.mp hp with rfl | hmem
        · simp [hln]
        · exact ih _ out hok p hmem

/-- C10 witness: the first conjunct at the one-entry function table for
id 7 produced by c10stream. -/
theorem C10_sourcemap_requires_routine_records_witness :
    build_sourcemap_list [] [(7, c10func)] = .error noneSubMsg :=
  C10_sourcemap_requires_routine_records.1 [] [(7, c10func)] (7, c10func)
    (by simp) rfl

theorem specMarker_iff (ls : List String) :
    specMarker ls = true ↔
      (4 ≤ ls.length ∧ ls.getD 2 ("") = ("[" : String) ∧
        startsWithPlus (ls.getD 1 (""))) := by
  simp only [specMarker, Bool.and_eq_true, decide_eq_true_eq]
  tauto

/-- C9 counterexample: the line with tokens xx +zz [ foo passes the
spec's structural marker test (at least 4 tokens, token 1 starts with a
plus, token 2 is the bracket), yet the scanner captures nothing from it
(the int conversions raise ValueError), and a following blank line
commits nothing — refuting the claim that the structural test alone
characterizes recognized definition lines. -/
theorem C9_counterexample :
    specMarker (pySplit (pyStrip c9badLine)) = true
  ∧ scanLine c9badLine = none
  ∧ parse_asm [c9badLine, ""] = [] :=
  ⟨rfl, rfl, rfl⟩

/-- C9 amended.  A line is captured as a function-definition marker iff
it passes the structural test AND token 0 parses as a decimal integer
AND token 1 without its leading plus parses as a hexadecimal integer
(conjuncts 1 to 4); a captured line is committed with exactly the
captured (line, address, name) once a following blank line arrives, and
is dropped when the input ends without one (conjuncts 5 and 6). -/
theorem C9_scanner_behavior :
    (∀ (ls : List String) (l a : Int), specMarker ls = true →
      pyInt (ls.getD 0 ("")) = some l →
      pyIntHex (strTail (ls.getD 1 (""))) = some a →
      scanTokens ls = some (l, ls.getD 3 (""), a))
  ∧ (∀ (ls : List String), specMarker ls = false → scanTokens ls = none)
  ∧ (∀ (ls : List String), pyInt (ls.getD 0 ("")) = none → scanTokens ls = none)
  ∧ (∀ (ls : List String), pyIntHex (strTail (ls.getD 1 (""))) = none →
      scanTokens ls = none)
  ∧ (∀ (ln : String) (t : Int × String × Int), scanLine ln = some t →
      parse_asm [ln] = [])
  ∧ (∀ (ln : String) (l : Int) (n : String) (a : Int),
      scanLine ln = some (l, n, a) → parse_asm [ln, ""] = [(a, (l, n))]) := by
  refine ⟨?_, ?_, ?_, ?_, ?_, ?_⟩
  · intro ls l a hm h0 h1
    rw [specMarker_iff] at hm
    simp only [scanTokens, if_pos hm]
    rw [h0, h1]
  · intro ls hm
    by_cases hc : 4 ≤ ls.length ∧ ls.getD 2 ("") = ("[" : String) ∧
      startsWithPlus (ls.getD 1 (""))
    · rw [← specMarker_iff] at hc
      rw [hc] at hm
      exact absurd hm (by simp)
    · simp only [scanTokens, if_neg hc]
  · intro ls h0
    by_cases hc : 4 ≤ ls.length ∧ ls.getD 2 ("") = ("[" : String) ∧
      startsWithPlus (ls.getD 1 (""))
    · simp only [scanTokens, if_pos hc]
      rw [h0]
    · simp only [scanTokens, if_neg hc]
  · intro ls h1
    by_cases hc : 4 ≤ ls.length ∧ ls.getD 2 ("") = ("[" : String) ∧
      startsWithPlus (ls.getD 1 (""))
    · simp only [scanTokens, if_pos hc]
      rw [h1]
      match h0 : pyInt (ls.getD 0 ("")) with
      | none => rfl
      | some v => rfl
    · simp only [scanTokens, if_neg hc]
  · intro ln t _hscan
    rfl
  · intro ln l n a hscan
    simp only [scanLine] at hscan
    show parse_asm_loop [ln, ""] none [] = [(a, (l, n))]
    simp only [parse_asm_loop]
    rw [hscan]
    rfl

/-- C9 witness: the capture conjunct and the commit conjunct at the good
line 12 +1f [ foo. -/
theorem C9_scanner_behavior_witness :
    scanTokens (pySplit (pyStrip c9goodLine)) = some (12, "foo", 31)
  ∧ parse_asm [c9goodLine, ""] = [(31, (12, "foo"))] :=
  ⟨C9_scanner_behavior.1 (pySplit (pyStrip c9goodLine)) 12 31 rfl rfl rfl,
   C9_scanner_behavior.2.2.2.2.2 c9goodLine 12 "foo" 31 rfl⟩

/-- C8 counterexample: a trace element whose self cost exceeds its total
cost is turned into a record and stored in the collection exactly as
given — no validation step flags it, refuting the claim that every
CostRecord satisfies the inequality or that a violation is flagged. -/
theorem C8_counterexample :
    ¬ ((mkFunction 64 ("40") attrsBad).self_time ≤
        (mkFunction 64 ("40") attrsBad).total_time)
  ∧ ¬ ((mkFunction 64 ("40") attrsBad).self_ops ≤
        (mkFunction 64 ("40") attrsBad).total_ops)
  ∧ runTrace [elemBad] = [(64, mkFunction 64 ("40") attrsBad)] := by
  refine ⟨by decide, by decide, rfl⟩

/-- C8 amended.  Record construction copies the four cost fields
verbatim from the trace attributes and performs no validation, so the
inequalities self_time ≤ total_time and self_ops ≤ total_ops hold for a
record exactly when the producing trace element satisfies them; a
violating element is accepted silently. -/
theorem C8_no_validation_of_costs :
    ∀ (a : Int) (hx : String) (attrs : Attrs),
      (mkFunction a hx attrs).self_time = attrs.self_time
    ∧ (mkFunction a hx attrs).total_time = attrs.total_time
    ∧ (mkFunction a hx attrs).self_ops = attrs.self_ops
    ∧ (mkFunction a hx attrs).total_ops = attrs.total_ops
    ∧ ((mkFunction a hx attrs).self_time ≤ (mkFunction a hx attrs).total_time ↔
        attrs.self_time ≤ attrs.total_time)
    ∧ ((mkFunction a hx attrs).self_ops ≤ (mkFunction a hx attrs).total_ops ↔
        attrs.self_ops ≤ attrs.total_ops) := by
  intro a hx attrs
  cases h1 : alookup a special_functions <;>
    simp [mkFunction, h1]

/-! ### Correlator lemmas for C1 -/

theorem correlate_fst (funcs : List (Int × Function))
    (sm : List (Int × (Int × String))) (ss : Int) :
    ((correlate funcs sm ss).1).map Prod.fst = funcs.map Prod.fst := by
  induction funcs with
  | nil => rfl
  | cons p rest ih =>
    obtain ⟨addr, f⟩ := p
    simp only [correlate]
    by_cases hs : f.special
    · simp [hs, ih]
    · cases hl : alookup (addr - ss) sm with
      | none => simp [hs, hl, ih]
      | some v =>
        obtain ⟨l1, n1⟩ := v
        simp [hs, hl, ih]

theorem correlate_badls (funcs : List (Int × Function))
    (sm : List (Int × (Int × String))) (ss : Int) :
    (correlate funcs sm ss).2 =
      (funcs.filter
        (fun e => !e.2.special && (alookup (e.1 - ss) sm).isNone)).map Prod.fst := by
  induction funcs with
  | nil => rfl
  | cons p rest ih =>
    obtain ⟨addr, f⟩ := p
    simp only [correlate]
    by_cases hs : f.special
    · simp [List.filter_cons, hs, ih]
    · cases hl : alookup (addr - ss) sm with
      | none => simp [List.filter_cons, hs, hl, ih]
      | some v =>
        obtain ⟨l1, n1⟩ := v
        simp [List.filter_cons, hs, hl, ih]

theorem correlate_mem_special (funcs : List (Int × Function))
    (sm : List (Int × (Int × String))) (ss : Int) (a : Int) (f : Function)
    (hmem : (a, f) ∈ funcs) (hs : f.special = true) :
    (a, f) ∈ (correlate funcs sm ss).1 := by
  induction funcs with
  | nil => exact absurd hmem (List.not_mem_nil (a, f))
  | cons p rest ih =>
    obtain ⟨addr, g⟩ := p
    simp only [correlate]
    rcases List.mem_cons.mp hmem with heq | hmem2
    · obtain ⟨rfl, rfl⟩ := Prod.mk.injEq .. ▸ heq
      simp [hs]
    · by_cases hgs : g.special
      · simp only [if_pos hgs]
        exact List.mem_cons_of_mem _ (ih hmem2)
      · simp only [if_neg hgs]
        cases hl : alookup (addr - ss) sm with
        | none => exact List.mem_cons_of_mem _ (ih hmem2)
        | some v =>
          obtain ⟨l1, n1⟩ := v
          exact List.mem_cons_of_mem _ (ih hmem2)

theorem correlate_mem_miss (funcs : List (Int × Function))
    (sm : List (Int × (Int × String))) (ss : Int) (a : Int) (f : Function)
    (hmem : (a, f) ∈ funcs) (hs : f.special = false)
    (hl0 : alookup (a - ss) sm = none) :
    (a, f) ∈ (correlate funcs sm ss).1 := by
  induction funcs with
  | nil => exact absurd hmem (List.not_mem_nil (a, f))
  | cons p rest ih =>
    obtain ⟨addr, g⟩ := p
    simp only [correlate]
    rcases List.mem_cons.mp hmem with heq | hmem2
    · obtain ⟨rfl, rfl⟩ := Prod.mk.injEq .. ▸ heq
      simp only [hs, Bool.false_eq_true, if_false, hl0]
      exact List.mem_cons_self _ _
    · by_cases hgs : g.special
      · simp only [if_pos hgs]
        exact List.mem_cons_of_mem _ (ih hmem2)
      · simp only [if_neg hgs]
        cases hl : alookup (addr - ss) sm with
        | none => exact List.mem_cons_of_mem _ (ih hmem2)
        | some v =>
          obtain ⟨l1, n1⟩ := v
          exact List.mem_cons_of_mem _ (ih hmem2)

theorem correlate_mem_hit (funcs : List (Int × Function))
    (sm : List (Int × (Int × String))) (ss : Int) (a : Int) (f : Function)
    (l1 : Int) (n1 : String) (hmem : (a, f) ∈ funcs) (hs : f.special = false)
    (hl0 : alookup (a - ss) sm = some (l1, n1)) :
    (a, { f with name := n1, linenum := l1 }) ∈ (correlate funcs sm ss).1 := by
  induction funcs with
  | nil => exact absurd hmem (List.not_mem_nil (a, f))
  | cons p rest ih =>
    obtain ⟨addr, g⟩ := p
    simp only [correlate]
    rcases List.mem_cons.mp hmem with heq | hmem2
    · obtain ⟨rfl, rfl⟩ := Prod.mk.injEq .. ▸ heq
      simp only [hs, Bool.false_eq_true, if_false, hl0]
      exact List.mem_cons_self _ _
    · by_cases hgs : g.special
      · simp only [if_pos hgs]
        exact List.mem_cons_of_mem _ (ih hmem2)
      · simp only [if_neg hgs]
        cases hl : alookup (addr - ss) sm with
        | none => exact List.mem_cons_of_mem _ (ih hmem2)
        | some v =>
          obtain ⟨l2, n2⟩ := v
          exact List.mem_cons_of_mem _ (ih hmem2)

/-- C1.  The correlation pass keeps every record (same keys in the same
order, first conjunct), collects in badls exactly the addresses of the
non-special records whose relative address is absent from the symbol
map, in order (second conjunct, so the reported count is the number of
unmatched records), leaves an unmatched non-special record in the output
unchanged (third conjunct, so its unknown name and line 0 remain),
rewrites a matched non-special record's name and line from the map
(fourth conjunct), and passes special records through untouched (fifth
conjunct).  The function is total, so no error is raised. -/
theorem C1_correlator_resolution :
    (∀ (funcs : List (Int × Function)) (sm : List (Int × (Int × String)))
      (ss : Int),
      ((correlate funcs sm ss).1).map Prod.fst = funcs.map Prod.fst)
  ∧ (∀ (funcs : List (Int × Function)) (sm : List (Int × (Int × String)))
      (ss : Int),
      (correlate funcs sm ss).2 =
        (funcs.filter
          (fun e => !e.2.special && (alookup (e.1 - ss) sm).isNone)).map Prod.fst)
  ∧ (∀ (funcs : List (Int × Function)) (sm : List (Int × (Int × String)))
      (ss : Int) (a : Int) (f : Function), (a, f) ∈ funcs →
      f.special = false → alookup (a - ss) sm = none →
      (a, f) ∈ (correlate funcs sm ss).1)
  ∧ (∀ (funcs : List (Int × Function)) (sm : List (Int × (Int × String)))
      (ss : Int) (a : Int) (f : Function) (l1 : Int) (n1 : String),
      (a, f) ∈ funcs → f.special = false → alookup (a - ss) sm = some (l1, n1) →
      (a, { f with name := n1, linenum := l1 }) ∈ (correlate funcs sm ss).1)
  ∧ (∀ (funcs : List (Int × Function)) (sm : List (Int × (Int × String)))
      (ss : Int) (a : Int) (f : Function), (a, f) ∈ funcs →
      f.special = true → (a, f) ∈ (correlate funcs sm ss).1) :=
  ⟨correlate_fst, correlate_badls,
   fun funcs sm ss a f hm hs hl => correlate_mem_miss funcs sm ss a f hm hs hl,
   fun funcs sm ss a f l1 n1 hm hs hl =>
     correlate_mem_hit funcs sm ss a f l1 n1 hm hs hl,
   fun funcs sm ss a f hm hs => correlate_mem_special funcs sm ss a f hm hs⟩

/-- C1 witness: two records at 100 and 200 with source_start 100 and a
map holding only relative address 0 — the one at 100 is renamed to
Main with line 12, the one at 200 stays as created and its address is
the whole badls list. -/
theorem C1_correlator_resolution_witness :
    (100, { funcA with name := "Main__", linenum := 12 })
      ∈ (correlate (runTrace [elemA, elemB]) smMain 100).1
  ∧ (200, funcB) ∈ (correlate (runTrace [elemA, elemB]) smMain 100).1
  ∧ (correlate (runTrace [elemA, elemB]) smMain 100).2 = [200] := by
  refine ⟨?_, ?_, ?_⟩
  · exact C1_correlator_resolution.2.2.2.1 (runTrace [elemA, elemB]) smMain 100
      100 funcA 12 "Main__" (by decide) (by decide) (by decide)
  · exact C1_correlator_resolution.2.2.1 (runTrace [elemA, elemB]) smMain 100
      200 funcB (by decide) (by decide) (by decide)
  · rw [C1_correlator_resolution.2.1 (runTrace [elemA, elemB]) smMain 100]
    decide

/-! ### Minimum lemmas for C2 -/

theorem foldl_min_mem (l : List Int) (a : Int) : l.foldl min a ∈ a :: l := by
  induction l generalizing a with
  | nil => simp
  | cons b t ih =>
    have h := ih (min a b)
    have hfold : List.foldl min a (b :: t) = List.foldl min (min a b) t := rfl
    rw [hfold]
    rcases List.mem_cons.mp h with heq | hmem
    · rcases min_choice a b with hab | hab
      · rw [heq, hab]
        exact List.mem_cons_self _ _
      · rw [heq, hab]
        exact List.mem_cons_of_mem _ (List.mem_cons_self _ _)
    · exact List.mem_cons_of_mem _ (List.mem_cons_of_mem _ hmem)

theorem foldl_min_le (l : List Int) (a : Int) :
    ∀ x ∈ a :: l, l.foldl min a ≤ x := by
  induction l generalizing a with
  | nil =>
    intro x hx
    rcases List.mem_cons.mp hx with heq | h
    · rw [heq]
      exact le_refl a
    · exact absurd h (List.not_mem_nil x)
  | cons b t ih =>
    intro x hx
    have hfold : List.foldl min a (b :: t) = List.foldl min (min a b) t := rfl
    rw [hfold]
    rcases List.mem_cons.mp hx with heq | hx2
    · rw [heq]
      exact le_trans (ih (min a b) (min a b) (List.mem_cons_self _ _))
        (min_le_left a b)
    · rcases List.mem_cons.mp hx2 with heq | hx3
      · rw [heq]
        exact le_trans (ih (min a b) (min a b) (List.mem_cons_self _ _))
          (min_le_right a b)
      · exact ih (min a b) x (List.mem_cons_of_mem _ hx3)

theorem mkFunction_special (a : Int) (hx : String) (attrs : Attrs) :
    (mkFunction a hx attrs).special = decide (a = 1 ∨ a = 2) := by
  by_cases h1 : (1 : Int) = a
  · subst h1; rfl
  · by_cases h2 : (2 : Int) = a
    · subst h2; rfl
    · have hlk : alookup a special_functions = none := by
        simp [alookup, special_functions, h1, h2]
      have hne : ¬(a = 1 ∨ a = 2) := by
        rintro (rfl | rfl)
        · exact h1 rfl
        · exact h2 rfl
      simp [mkFunction, hlk, hne]

theorem source_start_spec (fns : List Function)
    (hcons : ∀ f ∈ fns, f.special = decide (f.addr = 1 ∨ f.addr = 2))
    (f0 : Function) (hf0 : f0 ∈ fns) (h01 : f0.addr ≠ 1) (h02 : f0.addr ≠ 2) :
    ∃ m, source_start_calc fns = some m
      ∧ (∃ f1, f1 ∈ fns ∧ f1.addr = m ∧ f1.addr ≠ 1 ∧ f1.addr ≠ 2)
      ∧ (∀ g ∈ fns, g.addr ≠ 1 → g.addr ≠ 2 → m ≤ g.addr) := by
  have hmemfilter : ∀ f : Function,
      f ∈ fns.filter (fun f => !f.special) ↔
        (f ∈ fns ∧ f.addr ≠ 1 ∧ f.addr ≠ 2) := by
    intro f
    rw [List.mem_filter]
    constructor
    · rintro ⟨hm, hb⟩
      rw [hcons f hm] at hb
      simp only [Bool.not_eq_eq_eq_not, Bool.not_true, decide_eq_false_iff_not,
        not_or] at hb
      exact ⟨hm, hb.1, hb.2⟩
    · rintro ⟨hm, hx1, hx2⟩
      refine ⟨hm, ?_⟩
      rw [hcons f hm]
      simp [hx1, hx2]
  have hf0f : f0 ∈ fns.filter (fun f => !f.special) :=
    (hmemfilter f0).mpr ⟨hf0, h01, h02⟩
  cases hl : (fns.filter (fun f => !f.special)).map (fun f => f.addr) with
  | nil =>
    rw [List.map_eq_nil_iff] at hl
    rw [hl] at hf0f
    exact absurd hf0f (List.not_mem_nil f0)
  | cons a rest =>
    refine ⟨rest.foldl min a, ?_, ?_, ?_⟩
    · simp only [source_start_calc]
      rw [hl]
    · have hmem : rest.foldl min a ∈ a :: rest := foldl_min_mem rest a
      rw [← hl] at hmem
      obtain ⟨f1, hf1mem, hf1addr⟩ := List.mem_map.mp hmem
      obtain ⟨hf1fns, hf1a, hf1b⟩ := (hmemfilter f1).mp hf1mem
      exact ⟨f1, hf1fns, hf1addr, hf1a, hf1b⟩
    · intro g hg hg1 hg2
      have hgf : g ∈ fns.filter (fun f => !f.special) :=
        (hmemfilter g).mpr ⟨hg, hg1, hg2⟩
      have : g.addr ∈ (fns.filter (fun f => !f.special)).map (fun f => f.addr) :=
        List.mem_map_of_mem (fun f => f.addr) hgf
      rw [hl] at this
      exact foldl_min_le rest a g.addr this

/-- C2.  The special flag of a constructed record is set exactly for the
two sentinel addresses 1 and 2 (first conjunct); for any record list in
which the special flag agrees with that rule and which contains at least
one non-sentinel record, source_start_calc returns the address of some
non-sentinel record that is a lower bound of all non-sentinel addresses,
i.e. the minimum with the sentinels excluded (second conjunct); for
records at 0x40, 0x1, 0x2, 0x3c the result is 0x3c = 60 (third
conjunct). -/
theorem C2_source_start_minimum :
    (∀ (a : Int) (hx : String) (attrs : Attrs),
      (mkFunction a hx attrs).special = decide (a = 1 ∨ a = 2))
  ∧ (∀ (fns : List Function),
      (∀ f ∈ fns, f.special = decide (f.addr = 1 ∨ f.addr = 2)) →
      ∀ f0 ∈ fns, f0.addr ≠ 1 → f0.addr ≠ 2 →
      ∃ m, source_start_calc fns = some m
        ∧ (∃ f1, f1 ∈ fns ∧ f1.addr = m ∧ f1.addr ≠ 1 ∧ f1.addr ≠ 2)
        ∧ (∀ g ∈ fns, g.addr ≠ 1 → g.addr ≠ 2 → m ≤ g.addr))
  ∧ source_start_calc fnsC2 = some 60 :=
  ⟨mkFunction_special,
   fun fns hcons f0 hf0 h01 h02 => source_start_spec fns hcons f0 hf0 h01 h02,
   by decide⟩

/-- C2 witness: the second conjunct at the four-record list fnsC2, with
the record at 0x40 as the non-sentinel witness. -/
theorem C2_source_start_minimum_witness :
    ∃ m, source_start_calc fnsC2 = some m
      ∧ (∃ f1, f1 ∈ fnsC2 ∧ f1.addr = m ∧ f1.addr ≠ 1 ∧ f1.addr ≠ 2)
      ∧ (∀ g ∈ fnsC2, g.addr ≠ 1 → g.addr ≠ 2 → m ≤ g.addr) :=
  C2_source_start_minimum.2.1 fnsC2 (by decide)
    (mkFunction 0x40 ("40") attrsZero) (by decide) (by decide) (by decide)

/-! ### Sorting lemmas for C7 -/

theorem insertDesc_mem (f : Function) (l : List Function) (g : Function) :
    g ∈ insertDesc f l ↔ g = f ∨ g ∈ l := by
  induction l with
  | nil => simp [insertDesc]
  | cons b t ih =>
    simp only [insertDesc]
    by_cases hc : f.self_time < b.self_time
    · rw [if_pos hc]
      simp only [List.mem_cons, ih]
      tauto
    · rw [if_neg hc]
      simp only [List.mem_cons]

theorem insertDesc_pairwise (f : Function) (l : List Function)
    (h : l.Pairwise (fun a b => b.self_time ≤ a.self_time)) :
    (insertDesc f l).Pairwise (fun a b => b.self_time ≤ a.self_time) := by
  induction l with
  | nil => simp [insertDesc]
  | cons g gs ih =>
    obtain ⟨hg, hgs⟩ := List.pairwise_cons.mp h
    simp only [insertDesc]
    by_cases hc : f.self_time < g.self_time
    · rw [if_pos hc]
      rw [List.pairwise_cons]
      refine ⟨?_, ih hgs⟩
      intro b hb
      rcases (insertDesc_mem f gs b).mp hb with rfl | hbg
      · exact le_of_lt hc
      · exact hg b hbg
    · rw [if_neg hc]
      rw [List.pairwise_cons]
      refine ⟨?_, h⟩
      intro b hb
      rcases List.mem_cons.mp hb with rfl | hbg
      · exact not_lt.mp hc
      · exact le_trans (hg b hbg) (not_lt.mp hc)

theorem sortFuncs_pairwise (l : List Function) :
    (sortFuncs l).Pairwise (fun a b => b.self_time ≤ a.self_time) := by
  induction l with
  | nil => simp [sortFuncs]
  | cons f t ih => exact insertDesc_pairwise f (sortFuncs t) ih

theorem insertDesc_perm (f : Function) (l : List Function) :
    List.Perm (insertDesc f l) (f :: l) := by
  induction l with
  | nil => exact List.Perm.refl _
  | cons g gs ih =>
    simp only [insertDesc]
    by_cases hc : f.self_time < g.self_time
    · rw [if_pos hc]
      exact List.Perm.trans (List.Perm.cons g ih) (List.Perm.swap f g gs)
    · rw [if_neg hc]

theorem sortFuncs_perm (l : List Function) : List.Perm (sortFuncs l) l := by
  induction l with
  | nil => exact List.Perm.refl _
  | cons f t ih =>
    exact List.Perm.trans (insertDesc_perm f (sortFuncs t)) (List.Perm.cons f ih)

theorem insertDesc_filter (q : Rat) (f : Function) (l : List Function) :
    (insertDesc f l).filter (fun x => decide (x.self_time = q)) =
      if f.self_time = q then
        f :: l.filter (fun x => decide (x.self_time = q))
      else l.filter (fun x => decide (x.self_time = q)) := by
  induction l with
  | nil =>
    simp only [insertDesc, List.filter_cons, List.filter_nil]
    by_cases hfq : f.self_time = q <;> simp [hfq]
  | cons g gs ih =>
    simp only [insertDesc]
    by_cases hc : f.self_time < g.self_time
    · rw [if_pos hc]
      by_cases hgq : g.self_time = q
      · have hfq : ¬ f.self_time = q := by
          intro hfq
          rw [hfq, ← hgq] at hc
          exact lt_irrefl _ hc
        simp [List.filter_cons, hgq, hfq, ih]
      · simp [List.filter_cons, hgq, ih]
    · rw [if_neg hc]
      by_cases hfq : f.self_time = q <;> simp [List.filter_cons, hfq]

theorem sortFuncs_filter (q : Rat) (l : List Function) :
    (sortFuncs l).filter (fun x => decide (x.self_time = q)) =
      l.filter (fun x => decide (x.self_time = q)) := by
  induction l with
  | nil => rfl
  | cons f t ih =>
    have : sortFuncs (f :: t) = insertDesc f (sortFuncs t) := rfl
    rw [this, insertDesc_filter]
    by_cases hfq : f.self_time = q <;> simp [List.filter_cons, hfq, ih]

/-- C7 counterexample: records A, B, C at addresses 100, 200, 300 with
self times 5, 5, 3 discovered in that order land in hash-table slots 4,
0 and 1 (300 collides with 100 at slot 4 and probes to slot 1), so
functions.values() iterates [B, C, A]; the stable descending sort then
breaks the A/B tie by that order and the top-2 report is [B, A], not
the claimed [A, B] — discovery order is not the tie-break. -/
theorem C7_counterexample :
    py2values (py2buildFunctions [elemA, elemB, elemC]) = [funcB, funcC, funcA]
  ∧ (report (py2values (py2buildFunctions [elemA, elemB, elemC]))).take 2 =
      [funcB, funcA]
  ∧ funcA.self_time = funcB.self_time
  ∧ funcA ≠ funcB
  ∧ ([funcB, funcA] : List Function) ≠ [funcA, funcB] := by
  refine ⟨by decide, by decide, by decide, by decide, by decide⟩

/-- C7 amended.  The report is the first ten entries of the sorted
record list (first conjunct); the sort is descending by self_time
(second and third conjuncts), a permutation of its input (fourth
conjunct), and stable: within every class of equal self_time the output
order is exactly the pre-sort order (fifth conjunct, the filter
characterization of stability).  The pre-sort order is the iteration
order of the CPython 2 dict holding the records — hash-table slot
order of their addresses — not the discovery order: for discovery
order A, B, C at addresses 100, 200, 300 with self times 5, 5, 3,
values() is [B, C, A] and the top two are B then A (last conjuncts). -/
theorem C7_report_ranking :
    (∀ (l : List Function), report l = (sortFuncs l).take 10)
  ∧ (∀ (l : List Function),
      (sortFuncs l).Pairwise (fun a b => b.self_time ≤ a.self_time))
  ∧ (∀ (l : List Function),
      (report l).Pairwise (fun a b => b.self_time ≤ a.self_time))
  ∧ (∀ (l : List Function), List.Perm (sortFuncs l) l)
  ∧ (∀ (q : Rat) (l : List Function),
      (sortFuncs l).filter (fun x => decide (x.self_time = q)) =
        l.filter (fun x => decide (x.self_time = q)))
  ∧ py2values (py2buildFunctions [elemA, elemB, elemC]) = [funcB, funcC, funcA]
  ∧ funcA.self_time = funcB.self_time
  ∧ (report (py2values (py2buildFunctions [elemA, elemB, elemC]))).take 2 =
      [funcB, funcA] := by
  refine ⟨fun l => rfl, sortFuncs_pairwise, ?_, sortFuncs_perm, sortFuncs_filter,
    by decide, by decide, by decide⟩
  intro l
  exact (sortFuncs_pairwise l).sublist (List.take_sublist 10 (sortFuncs l))

end ProfileAnalyze
